import Mathlib

/-!
Shallow embedding of the user-management screen of the console repository
(source file src/unnamed/part_000, a Vue single-file component).

The reactive refs of the component become fields of `ComponentState`.
Each handler of the script block becomes a Lean function on that state.
Remote calls are modelled by `Except` oracles passed to the handler:
`Except.ok` is a resolved request, `Except.error` a rejected one.  Every
handler additionally returns the list of observable `Event`s it performed
(remote requests, console logs, toasts) and a flag `thrown` recording
whether an exception escaped the handler uncaught (the translation of a
missing try/catch around an `await`).

JavaScript `setInterval` / `clearInterval` are modelled by a pool
`activeTimers` of currently scheduled interval ids together with the
component's `refreshInterval` ref holding the last id it created;
`clearInterval` on a stale or absent id is a no-op, as in JS.

The Vue watcher `watch(selectedUserNames, ...)` (source lines 163-165) is
a non-deep ref watcher: it fires when `selectedUserNames.value` is
replaced — the row-checkbox `v-model` writes and line 178's select-all
assignment — but not when the array is mutated in place
(`selectedUserNames.value.length = 0`, source lines 157 and 183).  The
embedding therefore has one operation per kind of write:
`assignSelectedUserNames` performs a reassignment followed by the
watcher's write to `checkedAll`; `clearSelectedUserNamesInPlace` empties
the array and leaves `checkedAll` untouched.
-/

namespace Console

/-- `user.metadata` of the generated API client: the unique name, the
optional deletion timestamp and the optional annotation map (modelled as an
association list). -/
structure UserMetadata where
  name : String
  deletionTimestamp : Option String := none
  annotations : Option (List (String × String)) := none
deriving Repr, DecidableEq

/-- `user.spec` fields referenced by the component (used as Fuse keys). -/
structure UserSpecInfo where
  displayName : String := ""
  email : String := ""
deriving Repr, DecidableEq

/-- An entity of the list: a user record. -/
structure User where
  metadata : UserMetadata
  spec : UserSpecInfo := {}
deriving Repr, DecidableEq

/-- The `UserList` response shape (the Page of the data model),
source lines 41-51. -/
structure UserList where
  page : Nat
  size : Nat
  total : Nat
  items : List User
  first : Bool
  last : Bool
  hasNext : Bool
  hasPrevious : Bool
  totalPages : Nat
deriving Repr, DecidableEq

/-- The initial value of the `users` ref, source lines 41-51. -/
def initialUsers : UserList :=
  { page := 1, size := 20, total := 0, items := [], first := true,
    last := false, hasNext := false, hasPrevious := false, totalPages := 0 }

/-- The reactive state of the component: each field is one `ref` of the
script block (plus the timer pool of the JS runtime and the authenticated
user taken from `useUserStore`). -/
structure ComponentState where
  checkedAll : Bool
  editingModal : Bool
  passwordChangeModal : Bool
  grantPermissionModal : Bool
  users : UserList
  loading : Bool
  selectedUserNames : List String
  selectedUser : Option User
  refreshInterval : Option Nat
  keyword : String
  /-- the module-level `fuse` index; rebuilt from `data.items` on each
  successful fetch, `none` until the first one. -/
  fuse : Option (List User)
  /-- `userStore.currentUser?.metadata.name`. -/
  currentUser : Option String
  /-- interval timers currently scheduled in the JS runtime. -/
  activeTimers : List Nat
  /-- fresh id supply for `setInterval`. -/
  nextTimerId : Nat
deriving Repr

/-- The initial component state (all refs at their declared initial
values), parameterised by the authenticated actor's identifier. -/
def initState (currentUser : Option String) : ComponentState :=
  { checkedAll := false, editingModal := false, passwordChangeModal := false,
    grantPermissionModal := false, users := initialUsers, loading := false,
    selectedUserNames := [], selectedUser := none, refreshInterval := none,
    keyword := "", fuse := none, currentUser := currentUser,
    activeTimers := [], nextTimerId := 0 }

/-- Observable actions of a handler, in the order they are performed. -/
inductive Event where
  /-- `apiClient.extension.user.listv1alpha1User({page, size})`. -/
  | remoteListUsers (page size : Nat)
  /-- `apiClient.extension.user.deletev1alpha1User({name})`. -/
  | remoteDeleteUser (name : String)
  /-- `console.error(msg, e)`. -/
  | logError (msg : String)
  /-- `Toast.success(msg)`. -/
  | toastSuccess (msg : String)
deriving Repr, DecidableEq

/-- Result of running a handler: the state afterwards, the events it
performed and whether an exception escaped it uncaught. -/
structure HandlerResult where
  state : ComponentState
  events : List Event
  thrown : Bool

/-- `clearInterval(refreshInterval.value)`: removes the stored interval id
from the runtime's timer pool; a no-op when the ref is unset or the id is
stale, as in JS.  Note the source never resets `refreshInterval.value`
itself. -/
def clearRefreshInterval (s : ComponentState) : ComponentState :=
  { s with activeTimers :=
      match s.refreshInterval with
      | none => s.activeTimers
      | some t => s.activeTimers.erase t }

/-- `refreshInterval.value = setInterval(...)`: schedules a fresh interval
id and stores it in the ref (source lines 85-87). -/
def armRefreshInterval (s : ComponentState) : ComponentState :=
  { s with refreshInterval := some s.nextTimerId,
           activeTimers := s.nextTimerId :: s.activeTimers,
           nextTimerId := s.nextTimerId + 1 }

/-- A replacement of `selectedUserNames.value` (a row-checkbox `v-model`
write, or the select-all assignment of source lines 178-181) followed by
the ref watcher of source lines 163-165, which fires on value replacement:
`checkedAll.value = newValue.length === users.value.items?.length`. -/
def assignSelectedUserNames (names : List String) (s : ComponentState) : ComponentState :=
  { s with selectedUserNames := names,
           checkedAll := names.length == s.users.items.length }

/-- The in-place clear `selectedUserNames.value.length = 0` (source lines
157 and 183): the array is mutated, not replaced, so the non-deep watcher
of source lines 163-165 does not fire and `checkedAll` keeps whatever
value it had. -/
def clearSelectedUserNamesInPlace (s : ComponentState) : ComponentState :=
  { s with selectedUserNames := [] }

/-- `handleFetchUsers(options?)`, source lines 61-95.  The `try` block
clears the pending interval, raises the loading flag unless muted, awaits
the list call (the oracle `result`), and on success replaces `users`
wholesale, rebuilds the Fuse index from `data.items` and re-arms the
interval when some returned item carries a deletion timestamp.  The
`catch` logs; the `finally` clears `selectedUser` and `loading`.  The
catch-all means no exception escapes, hence `thrown := false`. -/
def handleFetchUsers (mute : Bool) (result : Except Unit UserList)
    (s : ComponentState) : HandlerResult :=
  let s1 := clearRefreshInterval s
  let s2 := if mute then s1 else { s1 with loading := true }
  let requestEv := Event.remoteListUsers s2.users.page s2.users.size
  let (s3, evs) :=
    match result with
    | .ok data =>
      let s3 := { s2 with users := data, fuse := some data.items }
      let deletedUsers := data.items.filter (fun (u : User) => u.metadata.deletionTimestamp.isSome)
      let s4 := if deletedUsers.length ≠ 0 then armRefreshInterval s3 else s3
      (s4, [requestEv])
    | .error _ => (s2, [requestEv, Event.logError "Failed to fetch users"])
  ⟨{ s3 with selectedUser := none, loading := false }, evs, false⟩

/-- The `searchResults` computed, source lines 99-105: identity on the
current Page's items when no index exists or the keyword is falsy (the
empty string); otherwise the Fuse query, abstracted by the parameter
`fsearch` (fuse.js is an external library).  A pure computation: its type
carries no `Event` list and no state change. -/
def searchResults (fsearch : List User → String → List User)
    (s : ComponentState) : List User :=
  if s.fuse.isNone ∨ s.keyword = "" then s.users.items
  else fsearch (s.fuse.getD []) s.keyword

/-- `handlePaginationChange({page, size})`, source lines 107-117: writes
the new page and size into the stored Page, then fetches. -/
def handlePaginationChange (page size : Nat) (result : Except Unit UserList)
    (s : ComponentState) : HandlerResult :=
  handleFetchUsers false result
    { s with users := { s.users with page := page, size := size } }

/-- The `onConfirm` callback of `handleDelete(user)`, source lines
124-135: awaits the single delete (oracle `delResult`), toasts on success,
logs on failure, and in the `finally` always awaits a re-fetch.  The
catch means no exception escapes. -/
def handleDeleteConfirm (user : User) (delResult : Except Unit Unit)
    (fetchResult : Except Unit UserList) (s : ComponentState) : HandlerResult :=
  let feedback :=
    match delResult with
    | .ok _ => [Event.toastSuccess "删除成功"]
    | .error _ => [Event.logError "Failed to delete user"]
  let f := handleFetchUsers false fetchResult s
  ⟨f.state, Event.remoteDeleteUser user.metadata.name :: (feedback ++ f.events), false⟩

/-- The `onConfirm` callback of `handleDeleteInBatch`, source lines
145-159: filters the actor's own name out of the selection, dispatches one
delete per remaining name (all issued before anything else runs), then
`await Promise.all`: when every request resolves it re-fetches, clears the
selection in place — an array mutation on which the non-deep watcher does
not fire, so `checkedAll` is left untouched — and toasts; when some
request rejects, `Promise.all` rejects and — there being no try/catch —
the rejection escapes the callback uncaught, skipping re-fetch, clear and
toast. -/
def handleDeleteInBatchConfirm (results : String → Except Unit Unit)
    (fetchResult : Except Unit UserList) (s : ComponentState) : HandlerResult :=
  let userNamesToDelete := s.selectedUserNames.filter
    (fun name => s.currentUser != some name)
  let deleteEvs := userNamesToDelete.map Event.remoteDeleteUser
  if userNamesToDelete.all (fun name => (results name).toBool) then
    let f := handleFetchUsers false fetchResult s
    ⟨clearSelectedUserNamesInPlace f.state,
      deleteEvs ++ f.events ++ [Event.toastSuccess "删除成功"], false⟩
  else
    ⟨s, deleteEvs, true⟩

/-- `handleCheckAllChange(e)`, source lines 174-185, composed with the
checkbox `v-model` write to `checkedAll` that precedes it: when checked,
`selectedUserNames.value` is reassigned to the names of all items of the
current Page (the watcher fires); otherwise it is emptied in place
(`selectedUserNames.value.length = 0`, no watcher), so `checkedAll` keeps
the `v-model`-written value. -/
def handleCheckAllChange (checked : Bool) (s : ComponentState) : ComponentState :=
  let s := { s with checkedAll := checked }
  if checked then
    assignSelectedUserNames (s.users.items.map (fun u => u.metadata.name)) s
  else
    clearSelectedUserNamesInPlace s

/-- `checkSelection(user)`, source lines 167-172. -/
def checkSelection (user : User) (s : ComponentState) : Bool :=
  (s.selectedUser.map (fun u => u.metadata.name)) == some user.metadata.name
    || s.selectedUserNames.contains user.metadata.name

/-- `handleOpenCreateModal(user)`, source lines 187-190. -/
def handleOpenCreateModal (user : User) (s : ComponentState) : ComponentState :=
  { s with selectedUser := some user, editingModal := true }

/-- The operations that drive the component: user interactions, remote
responses, timer expiry and teardown.  Each remote outcome is an oracle
carried by the operation. -/
inductive Op where
  /-- a call of `handleFetchUsers` (mount, modal close, manual refresh). -/
  | fetch (mute : Bool) (result : Except Unit UserList)
  /-- a pagination change. -/
  | pagination (page size : Nat) (result : Except Unit UserList)
  /-- the select-all checkbox. -/
  | toggleAll (checked : Bool)
  /-- a `v-model` write of the row-checkbox array (the UI only ever offers
  names of the currently rendered items). -/
  | userSelect (names : List String)
  /-- typing in the search box. -/
  | setKeyword (k : String)
  /-- opening the editing modal for a row. -/
  | openEditing (user : User)
  /-- a confirmed single delete. -/
  | deleteConfirm (user : User) (delResult : Except Unit Unit)
      (fetchResult : Except Unit UserList)
  /-- a confirmed batch delete. -/
  | deleteBatchConfirm (results : String → Except Unit Unit)
      (fetchResult : Except Unit UserList)
  /-- expiry of the polling interval: runs the muted fetch of source line
  86, and can only occur while a timer is scheduled. -/
  | timerFire (result : Except Unit UserList)
  /-- `onUnmounted`, source lines 217-219. -/
  | unmount

/-- One step of the component. -/
def step (op : Op) (s : ComponentState) : HandlerResult :=
  match op with
  | .fetch mute r => handleFetchUsers mute r s
  | .pagination p sz r => handlePaginationChange p sz r s
  | .toggleAll checked => ⟨handleCheckAllChange checked s, [], false⟩
  | .userSelect names => ⟨assignSelectedUserNames names s, [], false⟩
  | .setKeyword k => ⟨{ s with keyword := k }, [], false⟩
  | .openEditing u => ⟨handleOpenCreateModal u s, [], false⟩
  | .deleteConfirm u dr fr => handleDeleteConfirm u dr fr s
  | .deleteBatchConfirm results fr => handleDeleteInBatchConfirm results fr s
  | .timerFire r =>
    if s.activeTimers.isEmpty then ⟨s, [], false⟩ else handleFetchUsers true r s
  | .unmount => ⟨clearRefreshInterval s, [], false⟩

/-- Running a sequence of operations from the initial state of the
component mounted for the given actor. -/
def runOps (currentUser : Option String) (ops : List Op) : ComponentState :=
  ops.foldl (fun s op => (step op s).state) (initState currentUser)

/-! ### JSON.parse

`getRoles` (source lines 207-211) feeds an annotation string to the
JavaScript builtin `JSON.parse`.  The builtin is embedded below as a
recursive-descent parser for the full JSON grammar (RFC 8259): values are
`null`, booleans, numbers (validated, kept as source text), strings with
the standard escapes, arrays and objects; insignificant whitespace is
space, tab, line feed and carriage return; trailing non-whitespace is
rejected.  Recursion is by fuel, chosen large enough for every input. -/

/-- A JSON value as returned by `JSON.parse`. -/
inductive Json where
  | null
  | bool (b : Bool)
  | num (raw : String)
  | str (s : String)
  | arr (items : List Json)
  | obj (fields : List (String × Json))
deriving Repr

/-- Insignificant JSON whitespace. -/
def isJsonWs (c : Char) : Bool :=
  c = ' ' || c = '\t' || c = '\n' || c = '\r'

/-- Drops leading JSON whitespace. -/
def skipWs : List Char → List Char
  | [] => []
  | c :: cs => if isJsonWs c then skipWs cs else c :: cs

/-- Value of a hexadecimal digit. -/
def hexVal (c : Char) : Option Nat :=
  if '0' ≤ c ∧ c ≤ '9' then some (c.toNat - '0'.toNat)
  else if 'a' ≤ c ∧ c ≤ 'f' then some (c.toNat - 'a'.toNat + 10)
  else if 'A' ≤ c ∧ c ≤ 'F' then some (c.toNat - 'A'.toNat + 10)
  else none

/-- Body of a JSON string literal after the opening quote: accumulates
decoded characters (in reverse) until the closing quote, handling the
escapes `\" \\ \/ \b \f \n \r \t \uXXXX` and rejecting raw control
characters, as `JSON.parse` does. -/
def parseStringBody : Nat → List Char → List Char → Except String (String × List Char)
  | 0, _, _ => .error "JSON string ran out of fuel"
  | fuel + 1, acc, cs =>
    match cs with
    | [] => .error "Unterminated string in JSON"
    | c :: rest =>
      if c = '"' then .ok (String.mk acc.reverse, rest)
      else if c = '\\' then
        match rest with
        | [] => .error "Unterminated string in JSON"
        | e :: rest2 =>
          if e = '"' then parseStringBody fuel ('"' :: acc) rest2
          else if e = '\\' then parseStringBody fuel ('\\' :: acc) rest2
          else if e = '/' then parseStringBody fuel ('/' :: acc) rest2
          else if e = 'b' then parseStringBody fuel ('\x08' :: acc) rest2
          else if e = 'f' then parseStringBody fuel ('\x0C' :: acc) rest2
          else if e = 'n' then parseStringBody fuel ('\n' :: acc) rest2
          else if e = 'r' then parseStringBody fuel ('\r' :: acc) rest2
          else if e = 't' then parseStringBody fuel ('\t' :: acc) rest2
          else if e = 'u' then
            match rest2 with
            | h1 :: h2 :: h3 :: h4 :: rest3 =>
              match hexVal h1, hexVal h2, hexVal h3, hexVal h4 with
              | some a, some b, some c2, some d =>
                parseStringBody fuel
                  (Char.ofNat (((a * 16 + b) * 16 + c2) * 16 + d) :: acc) rest3
              | _, _, _, _ => .error "Bad Unicode escape in JSON"
            | _ => .error "Bad Unicode escape in JSON"
          else .error "Bad escaped character in JSON"
      else if c.toNat < 32 then .error "Bad control character in JSON string"
      else parseStringBody fuel (c :: acc) rest

/-- Longest prefix of decimal digits. -/
def takeDigits : List Char → List Char × List Char
  | [] => ([], [])
  | c :: cs =>
    if c.isDigit then
      let (ds, rest) := takeDigits cs
      (c :: ds, rest)
    else ([], c :: cs)

/-- The JSON integer production after the optional sign: a lone `0` or a
nonzero digit followed by digits (leading zeros are rejected). -/
def parseIntDigits : List Char → Except String (List Char × List Char)
  | [] => .error "Unexpected end of JSON input"
  | c :: cs =>
    if c = '0' then .ok ([c], cs)
    else if c.isDigit then
      let (ds, rest) := takeDigits cs
      .ok (c :: ds, rest)
    else .error "Unexpected token in JSON"

/-- The optional fraction production: a dot followed by one or more
digits. -/
def parseFracDigits : List Char → Except String (List Char × List Char)
  | '.' :: cs =>
    match takeDigits cs with
    | ([], _) => .error "Unterminated fractional number in JSON"
    | (ds, rest) => .ok ('.' :: ds, rest)
  | cs => .ok ([], cs)

/-- The optional exponent production: `e`/`E`, an optional sign and one or
more digits. -/
def parseExpDigits : List Char → Except String (List Char × List Char)
  | [] => .ok ([], [])
  | c :: cs =>
    if c = 'e' ∨ c = 'E' then
      let (sign, cs1) :=
        match cs with
        | [] => (([] : List Char), ([] : List Char))
        | d :: ds => if d = '+' ∨ d = '-' then ([d], ds) else ([], d :: ds)
      match takeDigits cs1 with
      | ([], _) => .error "Exponent part is missing a number in JSON"
      | (ds, rest) => .ok (c :: (sign ++ ds), rest)
    else .ok ([], c :: cs)

/-- A JSON number, validated and returned as its source text. -/
def parseNumberChars (cs : List Char) : Except String (String × List Char) :=
  let (sign, cs1) :=
    match cs with
    | '-' :: rest => ((['-'] : List Char), rest)
    | _ => ([], cs)
  match parseIntDigits cs1 with
  | .error e => .error e
  | .ok (ip, cs2) =>
    match parseFracDigits cs2 with
    | .error e => .error e
    | .ok (fp, cs3) =>
      match parseExpDigits cs3 with
      | .error e => .error e
      | .ok (ep, cs4) => .ok (String.mk (sign ++ ip ++ fp ++ ep), cs4)

mutual

/-- One JSON value, preceded by optional whitespace. -/
def parseValue : Nat → List Char → Except String (Json × List Char)
  | 0, _ => .error "JSON parser ran out of fuel"
  | fuel + 1, cs =>
    match skipWs cs with
    | [] => .error "Unexpected end of JSON input"
    | 'n' :: 'u' :: 'l' :: 'l' :: rest => .ok (.null, rest)
    | 't' :: 'r' :: 'u' :: 'e' :: rest => .ok (.bool true, rest)
    | 'f' :: 'a' :: 'l' :: 's' :: 'e' :: rest => .ok (.bool false, rest)
    | '"' :: rest =>
      (match parseStringBody (rest.length + 1) [] rest with
       | .error e => .error e
       | .ok (s, rest2) => .ok (.str s, rest2))
    | '[' :: rest =>
      (match skipWs rest with
       | ']' :: rest2 => .ok (.arr [], rest2)
       | _ => parseArrayItems fuel [] rest)
    | '\x7b' :: rest =>
      (match skipWs rest with
       | '\x7d' :: rest2 => .ok (.obj [], rest2)
       | _ => parseObjectItems fuel [] rest)
    | c :: rest =>
      if c = '-' ∨ c.isDigit then
        match parseNumberChars (c :: rest) with
        | .error e => .error e
        | .ok (raw, rest2) => .ok (.num raw, rest2)
      else .error "Unexpected token in JSON"

/-- The comma-separated elements of a nonempty JSON array, accumulated in
reverse. -/
def parseArrayItems : Nat → List Json → List Char → Except String (Json × List Char)
  | 0, _, _ => .error "JSON parser ran out of fuel"
  | fuel + 1, acc, cs =>
    match parseValue fuel cs with
    | .error e => .error e
    | .ok (v, rest) =>
      match skipWs rest with
      | ',' :: rest2 => parseArrayItems fuel (v :: acc) rest2
      | ']' :: rest2 => .ok (.arr (v :: acc).reverse, rest2)
      | _ => .error "Expected comma or closing bracket after array element in JSON"

/-- The comma-separated members of a nonempty JSON object, accumulated in
reverse. -/
def parseObjectItems : Nat → List (String × Json) → List Char →
    Except String (Json × List Char)
  | 0, _, _ => .error "JSON parser ran out of fuel"
  | fuel + 1, acc, cs =>
    match skipWs cs with
    | '"' :: rest =>
      (match parseStringBody (rest.length + 1) [] rest with
       | .error e => .error e
       | .ok (k, rest2) =>
         match skipWs rest2 with
         | ':' :: rest3 =>
           (match parseValue fuel rest3 with
            | .error e => .error e
            | .ok (v, rest4) =>
              match skipWs rest4 with
              | ',' :: rest5 => parseObjectItems fuel ((k, v) :: acc) rest5
              | '\x7d' :: rest5 => .ok (.obj ((k, v) :: acc).reverse, rest5)
              | _ => .error "Expected comma or closing brace after object member in JSON")
         | _ => .error "Expected colon after object key in JSON")
    | _ => .error "Expected string key in JSON object"

end

/-- `JSON.parse(text)`: a complete JSON document, with trailing
non-whitespace rejected.  The fuel `2 * length + 2` dominates the number
of grammar steps on any input: every two consecutive fuel decrements
consume at least one character of a well-formed document. -/
def jsonParse (text : String) : Except String Json :=
  match parseValue (2 * text.length + 2) text.toList with
  | .error e => .error e
  | .ok (v, rest) =>
    match skipWs rest with
    | [] => .ok v
    | _ => .error "Unexpected non-whitespace character after JSON data"

/-- True exactly on a rejected result. -/
def isErr {ε α : Type} (r : Except ε α) : Bool :=
  match r with
  | .error _ => true
  | .ok _ => false

/-- Modelled from the spec: the fixed annotation key constant
(`rbacAnnotations.ROLE_NAMES`, imported from `@/constants/annotations`,
whose source is not part of this repository); the spec says only that role
names are keyed by a fixed constant name, so the concrete string is
immaterial to every property below. -/
def roleNamesKey : String := "rbac.authorization.halo.run/role-names"

/-- `user.metadata.annotations?.[rbacAnnotations.ROLE_NAMES]`. -/
def roleNamesValue (user : User) : Option String :=
  user.metadata.annotations.bind (fun m => m.lookup roleNamesKey)

/-- `getRoles(user)`, source lines 207-211:
`JSON.parse(user.metadata.annotations?.[rbacAnnotations.ROLE_NAMES] || "[]")`.
The `||` replaces both a missing annotation and the falsy empty string by
the literal `"[]"`; the parse result — decoded value or uncaught parse
error — is the result of the call. -/
def getRoles (user : User) : Except String Json :=
  jsonParse
    (match roleNamesValue user with
     | some s => if s = "" then "[]" else s
     | none => "[]")

/-! ### Concrete fixtures used by the theorems below. -/

/-- A one-page `UserList` holding the given items. -/
def pageOf (items : List User) : UserList :=
  { page := 1, size := 20, total := items.length, items := items,
    first := true, last := true, hasNext := false, hasPrevious := false,
    totalPages := 1 }

/-- A user with only a name. -/
def plainUser (name : String) : User := { metadata := { name := name } }

/-- A user whose role-names annotation holds the given raw value. -/
def userWithRoleValue (name value : String) : User :=
  { metadata := { name := name,
                  annotations := some [(roleNamesKey, value)] } }

/-- The names dispatched for removal within a trace of events. -/
def removalNames (evs : List Event) : List String :=
  evs.filterMap (fun e =>
    match e with
    | .remoteDeleteUser n => some n
    | _ => none)

/-- The timer discipline of the Deletion Poller: either no interval is
scheduled, or exactly the one recorded in `refreshInterval` is. -/
def TimerInv (s : ComponentState) : Prop :=
  s.activeTimers = [] ∨ ∃ t, s.activeTimers = [t] ∧ s.refreshInterval = some t

/-- The derived invariant of the Selection Tracker:
`checkedAll == (selectedUserNames.length == users.items.length)`. -/
def checkedAllConsistent (s : ComponentState) : Prop :=
  s.checkedAll = (s.selectedUserNames.length == s.users.items.length)

/-- A plain entity named alice. -/
def userAlice : User := plainUser "alice"

/-- A plain entity named bob. -/
def userBob : User := plainUser "bob"

/-- A plain entity named carol. -/
def userCarol : User := plainUser "carol"

/-- An entity pending deletion. -/
def userDeleting : User :=
  { metadata := { name := "dora", deletionTimestamp := some "2022-09-01T00:00:00Z" } }

/-- Operation sequence exhibiting a stale selection: fetch a page holding
alice, check alice's row, then move to a page holding only bob. -/
def staleSelectionTrace : List Op :=
  [Op.fetch false (Except.ok (pageOf [userAlice])),
   Op.userSelect ["alice"],
   Op.pagination 2 20 (Except.ok (pageOf [userBob]))]

/-- Operation sequence exhibiting a stale `checkedAll`: fetch a two-item
page, check all, then fetch a three-item page. -/
def checkAllTrace : List Op :=
  [Op.fetch false (Except.ok (pageOf [userAlice, userBob])),
   Op.toggleAll true,
   Op.fetch false (Except.ok (pageOf [userAlice, userBob, userCarol]))]

/-- Operation sequence exhibiting a stale `checkedAll` after a successful
batch delete: check all on a two-item page, batch-delete everything (the
re-fetch returns one item), after which the in-place clear leaves
`checkedAll` true while 0 of 1 items are selected. -/
def batchStaleTrace : List Op :=
  [Op.fetch false (Except.ok (pageOf [userAlice, userBob])),
   Op.toggleAll true,
   Op.deleteBatchConfirm (fun _ => Except.ok ()) (Except.ok (pageOf [userCarol]))]

/-! ### Helper lemmas -/

lemma timerInv_clear {s : ComponentState} (h : TimerInv s) :
    (clearRefreshInterval s).activeTimers = [] := by
  rcases h with h | ⟨t, ht, hr⟩
  · cases hri : s.refreshInterval <;> simp [clearRefreshInterval, h, hri]
  · simp [clearRefreshInterval, hr, ht]

lemma handleFetchUsers_loading (mute : Bool) (r : Except Unit UserList)
    (s : ComponentState) : (handleFetchUsers mute r s).state.loading = false := by
  cases r <;> rfl

lemma handleFetchUsers_selectedUser (mute : Bool) (r : Except Unit UserList)
    (s : ComponentState) : (handleFetchUsers mute r s).state.selectedUser = none := by
  cases r <;> rfl

lemma handleFetchUsers_thrown (mute : Bool) (r : Except Unit UserList)
    (s : ComponentState) : (handleFetchUsers mute r s).thrown = false := by
  cases r <;> rfl

lemma handleFetchUsers_users (mute : Bool) (r : Except Unit UserList)
    (s : ComponentState) :
    (handleFetchUsers mute r s).state.users =
      (match r with
       | .ok d => d
       | .error _ => s.users) := by
  cases r with
  | ok d =>
    cases mute <;>
      · simp only [handleFetchUsers]
        split <;> rfl
  | error e => cases mute <;> rfl

lemma handleFetchUsers_selectedUserNames (mute : Bool) (r : Except Unit UserList)
    (s : ComponentState) :
    (handleFetchUsers mute r s).state.selectedUserNames = s.selectedUserNames := by
  cases r with
  | ok d =>
    cases mute <;>
      · simp only [handleFetchUsers]
        split <;> rfl
  | error e => cases mute <;> rfl

lemma handleFetchUsers_checkedAll (mute : Bool) (r : Except Unit UserList)
    (s : ComponentState) :
    (handleFetchUsers mute r s).state.checkedAll = s.checkedAll := by
  cases r with
  | ok d =>
    cases mute <;>
      · simp only [handleFetchUsers]
        split <;> rfl
  | error e => cases mute <;> rfl

lemma handleFetchUsers_events (mute : Bool) (r : Except Unit UserList)
    (s : ComponentState) :
    (handleFetchUsers mute r s).events =
      Event.remoteListUsers s.users.page s.users.size ::
        (match r with
         | .ok _ => []
         | .error _ => [Event.logError "Failed to fetch users"]) := by
  cases r <;> cases mute <;> rfl

lemma handleFetchUsers_activeTimers_error {s : ComponentState} (h : TimerInv s)
    (mute : Bool) (e : Unit) :
    (handleFetchUsers mute (.error e) s).state.activeTimers = [] := by
  have hc := timerInv_clear h
  cases mute <;> exact hc

lemma handleFetchUsers_activeTimers_ok {s : ComponentState} (h : TimerInv s)
    (mute : Bool) (d : UserList) :
    (handleFetchUsers mute (.ok d) s).state.activeTimers =
      if (d.items.filter (fun (u : User) => u.metadata.deletionTimestamp.isSome)).length ≠ 0
      then [s.nextTimerId] else [] := by
  have hc := timerInv_clear h
  by_cases hd :
      (d.items.filter (fun (u : User) => u.metadata.deletionTimestamp.isSome)).length ≠ 0
  · rw [if_pos hd]
    cases mute <;>
      · simp only [handleFetchUsers]
        rw [if_pos hd]
        show s.nextTimerId :: (clearRefreshInterval s).activeTimers = [s.nextTimerId]
        rw [hc]
  · rw [if_neg hd]
    cases mute <;>
      · simp only [handleFetchUsers]
        rw [if_neg hd]
        exact hc

lemma handleFetchUsers_refreshInterval_ok (mute : Bool) (d : UserList)
    (s : ComponentState) :
    (handleFetchUsers mute (.ok d) s).state.refreshInterval =
      if (d.items.filter (fun (u : User) => u.metadata.deletionTimestamp.isSome)).length ≠ 0
      then some s.nextTimerId else s.refreshInterval := by
  by_cases hd :
      (d.items.filter (fun (u : User) => u.metadata.deletionTimestamp.isSome)).length ≠ 0
  · rw [if_pos hd]
    cases mute <;>
      · simp only [handleFetchUsers]
        rw [if_pos hd]
        rfl
  · rw [if_neg hd]
    cases mute <;>
      · simp only [handleFetchUsers]
        rw [if_neg hd]
        rfl

lemma handleFetchUsers_timerInv {s : ComponentState} (h : TimerInv s)
    (mute : Bool) (r : Except Unit UserList) :
    TimerInv (handleFetchUsers mute r s).state := by
  cases r with
  | error e => exact Or.inl (handleFetchUsers_activeTimers_error h mute e)
  | ok d =>
    by_cases hd :
        (d.items.filter (fun (u : User) => u.metadata.deletionTimestamp.isSome)).length ≠ 0
    · right
      refine ⟨s.nextTimerId, ?_, ?_⟩
      · rw [handleFetchUsers_activeTimers_ok h mute d, if_pos hd]
      · rw [handleFetchUsers_refreshInterval_ok mute d s, if_pos hd]
    · left
      rw [handleFetchUsers_activeTimers_ok h mute d, if_neg hd]

lemma step_timerInv (op : Op) {s : ComponentState} (h : TimerInv s) :
    TimerInv (step op s).state := by
  cases op with
  | fetch mute r => exact handleFetchUsers_timerInv h mute r
  | pagination p sz r =>
    have h2 : TimerInv { s with users := { s.users with page := p, size := sz } } := h
    exact handleFetchUsers_timerInv h2 false r
  | toggleAll checked => cases checked <;> exact h
  | userSelect names => exact h
  | setKeyword k => exact h
  | openEditing u => exact h
  | deleteConfirm u dr fr => exact handleFetchUsers_timerInv h false fr
  | deleteBatchConfirm results fr =>
    by_cases hc :
        (s.selectedUserNames.filter
          (fun name => s.currentUser != some name)).all
            (fun name => (results name).toBool) = true
    · have hf := handleFetchUsers_timerInv h false fr
      simp only [step, handleDeleteInBatchConfirm, hc, if_true]
      exact hf
    · simp only [step, handleDeleteInBatchConfirm, if_neg hc]
      exact h
  | timerFire r =>
    by_cases he : s.activeTimers.isEmpty = true
    · simp only [step, if_pos he]
      exact h
    · simp only [step, if_neg he]
      exact handleFetchUsers_timerInv h true r
  | unmount => exact Or.inl (timerInv_clear h)

lemma foldl_timerInv (ops : List Op) :
    ∀ s : ComponentState, TimerInv s →
      TimerInv (ops.foldl (fun s op => (step op s).state) s) := by
  induction ops with
  | nil => intro s h; exact h
  | cons op ops ih => intro s h; exact ih _ (step_timerInv op h)

lemma runOps_timerInv (cu : Option String) (ops : List Op) :
    TimerInv (runOps cu ops) :=
  foldl_timerInv ops _ (Or.inl rfl)

lemma timerInv_length_le_one {s : ComponentState} (h : TimerInv s) :
    s.activeTimers.length ≤ 1 := by
  rcases h with h | ⟨t, ht, _⟩
  · simp [h]
  · simp [ht]

lemma filter_deleted_length_iff (l : List User) :
    ((l.filter (fun (u : User) => u.metadata.deletionTimestamp.isSome)).length ≠ 0) ↔
      ∃ u ∈ l, u.metadata.deletionTimestamp.isSome = true := by
  rw [Ne, List.length_eq_zero]
  rw [List.filter_eq_nil_iff]
  push_neg
  simp

lemma removalNames_append (a b : List Event) :
    removalNames (a ++ b) = removalNames a ++ removalNames b := by
  simp [removalNames, List.filterMap_append]

lemma removalNames_map_delete (l : List String) :
    removalNames (l.map Event.remoteDeleteUser) = l := by
  induction l with
  | nil => rfl
  | cons a l ih => simpa [removalNames] using ih

lemma removalNames_fetch (mute : Bool) (r : Except Unit UserList)
    (s : ComponentState) :
    removalNames ((handleFetchUsers mute r s).events) = [] := by
  rw [handleFetchUsers_events]
  cases r <;> rfl

lemma batchConfirm_events (results : String → Except Unit Unit)
    (fr : Except Unit UserList) (s : ComponentState) :
    (handleDeleteInBatchConfirm results fr s).events =
      (s.selectedUserNames.filter
        (fun name => s.currentUser != some name)).map Event.remoteDeleteUser
      ++ (if (s.selectedUserNames.filter
              (fun name => s.currentUser != some name)).all
                (fun name => (results name).toBool) = true
          then (handleFetchUsers false fr s).events ++ [Event.toastSuccess "删除成功"]
          else []) := by
  by_cases hc :
      (s.selectedUserNames.filter
        (fun name => s.currentUser != some name)).all
          (fun name => (results name).toBool) = true
  · simp only [handleDeleteInBatchConfirm, hc, if_true, List.append_assoc]
  · simp only [handleDeleteInBatchConfirm, if_neg hc, List.append_nil]

lemma batchConfirm_selectedUserNames (results : String → Except Unit Unit)
    (fr : Except Unit UserList) (s : ComponentState) :
    (handleDeleteInBatchConfirm results fr s).state.selectedUserNames =
      (if (s.selectedUserNames.filter
            (fun name => s.currentUser != some name)).all
              (fun name => (results name).toBool) = true
       then [] else s.selectedUserNames) := by
  by_cases hc :
      (s.selectedUserNames.filter
        (fun name => s.currentUser != some name)).all
          (fun name => (results name).toBool) = true
  · simp only [handleDeleteInBatchConfirm, hc, if_true]
    rfl
  · simp only [handleDeleteInBatchConfirm, if_neg hc]

lemma batchConfirm_thrown (results : String → Except Unit Unit)
    (fr : Except Unit UserList) (s : ComponentState) :
    (handleDeleteInBatchConfirm results fr s).thrown =
      !((s.selectedUserNames.filter
          (fun name => s.currentUser != some name)).all
            (fun name => (results name).toBool)) := by
  by_cases hc :
      (s.selectedUserNames.filter
        (fun name => s.currentUser != some name)).all
          (fun name => (results name).toBool) = true
  · simp only [handleDeleteInBatchConfirm, hc, if_true, Bool.not_true]
  · simp only [handleDeleteInBatchConfirm, if_neg hc]
    simp only [Bool.not_eq_true] at hc
    rw [hc]
    rfl

lemma deleteConfirm_events (u : User) (dr : Except Unit Unit)
    (fr : Except Unit UserList) (s : ComponentState) :
    (handleDeleteConfirm u dr fr s).events =
      Event.remoteDeleteUser u.metadata.name ::
        ((match dr with
          | .ok _ => [Event.toastSuccess "删除成功"]
          | .error _ => [Event.logError "Failed to delete user"])
         ++ (handleFetchUsers false fr s).events) := by
  cases dr <;> rfl

/-! ### Claim theorems -/

/-- C1: an invocation of `handleFetchUsers` replaces the stored Page
wholesale on success and leaves it exactly as it was before the call when
the remote list call fails (the replacement is atomic), and on every path
— success or failure, muted or not — the guaranteed-cleanup step clears
the loading indicator and resets the single active-entity selection to
none. -/
theorem c1_fetch_atomic_cleanup (mute : Bool) (r : Except Unit UserList)
    (s : ComponentState) :
    (handleFetchUsers mute r s).state.users =
      (match r with
       | .ok d => d
       | .error _ => s.users)
    ∧ (handleFetchUsers mute r s).state.loading = false
    ∧ (handleFetchUsers mute r s).state.selectedUser = none :=
  ⟨handleFetchUsers_users mute r s, handleFetchUsers_loading mute r s,
    handleFetchUsers_selectedUser mute r s⟩

/-- C2 (evaluation at the failing input): after fetching a page holding
only alice, checking alice's row and paginating to a page holding only
bob, the code leaves "alice" in `selectedUserNames`, so the Selection Set
is not a subset of the identifiers of the current Page: no fetch or
pagination path clears or intersects it. -/
theorem c2_stale_selection_survives_fetch :
    (runOps none staleSelectionTrace).selectedUserNames = ["alice"]
    ∧ (runOps none staleSelectionTrace).users.items.map
        (fun u => u.metadata.name) = ["bob"]
    ∧ "alice" ∉ (runOps none staleSelectionTrace).users.items.map
        (fun u => u.metadata.name) :=
  ⟨rfl, rfl, by decide⟩

/-- C3 (counterexample): a reachable state violating
`checkedAll == (selectedNames.size == currentPage.items.length)`: check
all on a two-item page, then fetch a three-item page — the selection did
not change, so the watcher never ran, and `checkedAll` stays true while
the sizes differ. -/
theorem c3_checkedAll_not_invariant :
    (runOps none checkAllTrace).checkedAll = true
    ∧ (runOps none checkAllTrace).selectedUserNames.length = 2
    ∧ (runOps none checkAllTrace).users.items.length = 3
    ∧ ¬ checkedAllConsistent (runOps none checkAllTrace) :=
  ⟨rfl, rfl, rfl, by unfold checkedAllConsistent; decide⟩

/-- C3 (amended): `checkedAll == (selectedNames.size == items.length)` is
re-established exactly by the writes on which the non-deep ref watcher
fires — the reassignments of `selectedUserNames.value`, i.e. the
row-checkbox `v-model` writes and the select-all branch.  It is not
re-established by the in-place clears: unchecking keeps the
`v-model`-written false and a successful batch delete's clear leaves
`checkedAll` exactly as the preceding re-fetch left it; nor by a mutation
of the Page alone, which never touches `checkedAll` — concretely, check
all on a two-item page, batch-delete with a re-fetch returning one item,
and `checkedAll` stays true with zero of one items selected. -/
theorem c3_checkedAll_recomputed_only_on_reassignment (s : ComponentState)
    (names : List String) (mute : Bool)
    (results : String → Except Unit Unit) (fr : Except Unit UserList) :
    checkedAllConsistent (assignSelectedUserNames names s)
    ∧ checkedAllConsistent ((step (Op.userSelect names) s).state)
    ∧ checkedAllConsistent (handleCheckAllChange true s)
    ∧ (handleCheckAllChange false s).selectedUserNames = []
    ∧ (handleCheckAllChange false s).checkedAll = false
    ∧ (handleFetchUsers mute fr s).state.checkedAll = s.checkedAll
    ∧ (handleDeleteInBatchConfirm results fr s).state.checkedAll = s.checkedAll
    ∧ (runOps none batchStaleTrace).checkedAll = true
    ∧ (runOps none batchStaleTrace).selectedUserNames = []
    ∧ (runOps none batchStaleTrace).users.items.length = 1
    ∧ ¬ checkedAllConsistent (runOps none batchStaleTrace) := by
  refine ⟨rfl, rfl, rfl, rfl, rfl, handleFetchUsers_checkedAll mute fr s, ?_,
    rfl, rfl, rfl, by unfold checkedAllConsistent; decide⟩
  by_cases hc :
      (s.selectedUserNames.filter
        (fun name => s.currentUser != some name)).all
          (fun name => (results name).toBool) = true
  · have hstate : (handleDeleteInBatchConfirm results fr s).state
        = clearSelectedUserNamesInPlace (handleFetchUsers false fr s).state := by
      simp only [handleDeleteInBatchConfirm, hc, if_true]
    rw [hstate]
    show (handleFetchUsers false fr s).state.checkedAll = s.checkedAll
    exact handleFetchUsers_checkedAll false fr s
  · simp only [handleDeleteInBatchConfirm, if_neg hc]

/-- C4: over every operation sequence, at most one polling timer is ever
scheduled; a fetch arms a timer exactly when it succeeds and the fetched
Page contains an item with a deletion timestamp (each fetch having first
cancelled the previous timer); teardown cancels the timer; and with no
timer scheduled, a timer expiry performs nothing — no further background
re-fetch occurs. -/
theorem c4_polling_discipline (cu : Option String) (ops : List Op)
    (mute : Bool) (r : Except Unit UserList) :
    (runOps cu ops).activeTimers.length ≤ 1
    ∧ ((handleFetchUsers mute r (runOps cu ops)).state.activeTimers ≠ [] ↔
        ∃ d, r = Except.ok d ∧ ∃ u ∈ d.items, u.metadata.deletionTimestamp.isSome = true)
    ∧ (step Op.unmount (runOps cu ops)).state.activeTimers = []
    ∧ ((runOps cu ops).activeTimers = [] →
        step (Op.timerFire r) (runOps cu ops) = ⟨runOps cu ops, [], false⟩) := by
  have hinv := runOps_timerInv cu ops
  refine ⟨timerInv_length_le_one hinv, ?_, timerInv_clear hinv, ?_⟩
  · cases r with
    | error e =>
      rw [handleFetchUsers_activeTimers_error hinv mute e]
      simp
    | ok d =>
      rw [handleFetchUsers_activeTimers_ok hinv mute d]
      by_cases hd :
          (d.items.filter
            (fun (u : User) => u.metadata.deletionTimestamp.isSome)).length ≠ 0
      · rw [if_pos hd]
        constructor
        · intro _
          exact ⟨d, rfl, (filter_deleted_length_iff d.items).mp hd⟩
        · intro _
          simp
      · rw [if_neg hd]
        constructor
        · intro hfalse
          exact absurd rfl hfalse
        · rintro ⟨d2, hdd, u, hu, hdel⟩
          rw [Except.ok.injEq] at hdd
          subst hdd
          exact absurd ((filter_deleted_length_iff d.items).mpr ⟨u, hu, hdel⟩) hd
  · intro hempty
    have hE : (runOps cu ops).activeTimers.isEmpty = true := by
      rw [hempty]
      rfl
    simp only [step, hE, if_true]

/-- C4 witness: at the initial state (no operation yet) no timer is
scheduled and a timer expiry is a no-op. -/
theorem c4_polling_discipline_witness :
    (runOps none ([] : List Op)).activeTimers = []
    ∧ step (Op.timerFire (Except.error ())) (runOps none ([] : List Op))
        = ⟨runOps none ([] : List Op), [], false⟩ :=
  ⟨rfl, (c4_polling_discipline none ([] : List Op) false (Except.error ())).2.2.2 rfl⟩

/-- C5: a confirmed batch delete dispatches removals for exactly the
selected identifiers minus the actor's own (actor "admin" with selection
["admin","bob"] dispatches only "bob"); every removal is issued before
anything else runs, and only when all of them resolve does the handler
re-fetch the list, clear the selection set and report success. -/
theorem c5_batch_delete_dispatch (results : String → Except Unit Unit)
    (fr : Except Unit UserList) (s : ComponentState) :
    removalNames ((handleDeleteInBatchConfirm results fr s).events) =
      s.selectedUserNames.filter (fun name => s.currentUser != some name)
    ∧ (handleDeleteInBatchConfirm results fr s).events =
        (s.selectedUserNames.filter
          (fun name => s.currentUser != some name)).map Event.remoteDeleteUser
        ++ (if (s.selectedUserNames.filter
                (fun name => s.currentUser != some name)).all
                  (fun name => (results name).toBool) = true
            then (handleFetchUsers false fr s).events
                  ++ [Event.toastSuccess "删除成功"]
            else [])
    ∧ (handleDeleteInBatchConfirm results fr s).state.selectedUserNames =
        (if (s.selectedUserNames.filter
              (fun name => s.currentUser != some name)).all
                (fun name => (results name).toBool) = true
         then [] else s.selectedUserNames)
    ∧ (handleFetchUsers false fr s).events.head? =
        some (Event.remoteListUsers s.users.page s.users.size)
    ∧ removalNames ((handleDeleteInBatchConfirm (fun _ => Except.ok ())
          (Except.ok (pageOf []))
          { initState (some "admin") with
              selectedUserNames := ["admin", "bob"] }).events) = ["bob"] := by
  refine ⟨?_, batchConfirm_events results fr s,
    batchConfirm_selectedUserNames results fr s, ?_, ?_⟩
  · rw [batchConfirm_events, removalNames_append, removalNames_map_delete]
    by_cases hc :
        (s.selectedUserNames.filter
          (fun name => s.currentUser != some name)).all
            (fun name => (results name).toBool) = true
    · rw [if_pos hc, removalNames_append, removalNames_fetch]
      simp [removalNames]
    · rw [if_neg hc]
      simp [removalNames]
  · rw [handleFetchUsers_events]
    rfl
  · rfl

/-- C6 (counterexample): a bulk-delete removal failure is neither caught
nor logged by the handler: the trace holds the dispatched call only — no
log event — and the rejection escapes the confirm callback uncaught. -/
theorem c6_batch_error_uncaught :
    (handleDeleteInBatchConfirm (fun _ => Except.error ()) (Except.ok (pageOf []))
        { initState (some "admin") with selectedUserNames := ["bob"] }).thrown = true
    ∧ (handleDeleteInBatchConfirm (fun _ => Except.error ()) (Except.ok (pageOf []))
        { initState (some "admin") with selectedUserNames := ["bob"] }).events
      = [Event.remoteDeleteUser "bob"] :=
  ⟨rfl, rfl⟩

/-- C6 (amended): failures of the list fetch and of the single delete are
caught at the point of the call, logged, and never rethrown past the
handler; a failure of a bulk-delete removal request, however, is not
caught inside the bulk handler — nothing is logged there and the rejection
propagates out of the confirm callback (the handler throws exactly when
some dispatched removal fails). -/
theorem c6_error_propagation_policy (mute : Bool) (r : Except Unit UserList)
    (u : User) (dr : Except Unit Unit) (fr : Except Unit UserList)
    (results : String → Except Unit Unit) (s : ComponentState) :
    (handleFetchUsers mute r s).thrown = false
    ∧ (handleFetchUsers mute r s).events =
        Event.remoteListUsers s.users.page s.users.size ::
          (match r with
           | .ok _ => []
           | .error _ => [Event.logError "Failed to fetch users"])
    ∧ (handleDeleteConfirm u dr fr s).thrown = false
    ∧ (handleDeleteConfirm u dr fr s).events =
        Event.remoteDeleteUser u.metadata.name ::
          ((match dr with
            | .ok _ => [Event.toastSuccess "删除成功"]
            | .error _ => [Event.logError "Failed to delete user"])
           ++ (handleFetchUsers false fr s).events)
    ∧ (handleDeleteInBatchConfirm results fr s).thrown =
        !((s.selectedUserNames.filter
            (fun name => s.currentUser != some name)).all
              (fun name => (results name).toBool)) :=
  ⟨handleFetchUsers_thrown mute r s, handleFetchUsers_events mute r s, rfl,
    deleteConfirm_events u dr fr s, batchConfirm_thrown results fr s⟩

/-- C7: a confirmed single delete issues the removal request, gives
feedback on each path — a success toast when the request resolves, an
error log when it rejects — and unconditionally triggers a list re-fetch
afterward: the re-fetch request appears in the trace and determines the
final state on the success and failure paths alike. -/
theorem c7_single_delete_refetch (u : User) (dr : Except Unit Unit)
    (fr : Except Unit UserList) (s : ComponentState) :
    (handleDeleteConfirm u dr fr s).events =
      Event.remoteDeleteUser u.metadata.name ::
        ((match dr with
          | .ok _ => [Event.toastSuccess "删除成功"]
          | .error _ => [Event.logError "Failed to delete user"])
         ++ (handleFetchUsers false fr s).events)
    ∧ Event.remoteListUsers s.users.page s.users.size
        ∈ (handleDeleteConfirm u dr fr s).events
    ∧ (handleDeleteConfirm u dr fr s).state = (handleFetchUsers false fr s).state := by
  refine ⟨deleteConfirm_events u dr fr s, ?_, rfl⟩
  rw [deleteConfirm_events, handleFetchUsers_events]
  cases dr <;> simp

/-- C8: whenever the keyword is empty or no Fuse index has been built,
`searchResults` is the identity on the current Page's items — same items,
same order, no filtering; the computed performs no remote call (it is a
pure function of the state). -/
theorem c8_search_identity (fsearch : List User → String → List User)
    (s : ComponentState) (h : s.fuse = none ∨ s.keyword = "") :
    searchResults fsearch s = s.users.items := by
  rcases h with h | h <;> simp [searchResults, h]

/-- C8 witness: at the initial state (no index yet, empty keyword) the
search result is the stored item list. -/
theorem c8_search_identity_witness :
    ((initState none).fuse = none ∨ (initState none).keyword = "")
    ∧ searchResults (fun index _ => index) (initState none)
        = (initState none).users.items :=
  ⟨Or.inl rfl, c8_search_identity (fun index _ => index) (initState none) (Or.inl rfl)⟩

/-- C9 (counterexample): a present annotation equal to the empty string is
itself malformed JSON — `jsonParse` rejects it — yet `getRoles` does not
raise: the `||` fallback replaces the falsy empty string by "[]" and the
decode succeeds with the empty list. -/
theorem c9_empty_string_not_fatal :
    roleNamesValue (userWithRoleValue "jane" "") = some ""
    ∧ isErr (jsonParse "") = true
    ∧ getRoles (userWithRoleValue "jane" "") = Except.ok (Json.arr []) :=
  ⟨rfl, rfl, rfl⟩

/-- C9 (amended): the annotation value `'["Editor","Guest"]'` decodes to
the ordered sequence of the two role names; an absent annotation decodes
to the empty list; and every present non-empty annotation value is handed
to the JSON decoder unchanged, with no fallback — in particular a
malformed non-empty value makes `getRoles` raise the decoder's fatal
parse error. -/
theorem c9_roles_decode :
    getRoles (userWithRoleValue "jane" "[\"Editor\",\"Guest\"]")
        = Except.ok (Json.arr [Json.str "Editor", Json.str "Guest"])
    ∧ getRoles (plainUser "jane") = Except.ok (Json.arr [])
    ∧ ∀ (u : User) (v : String), roleNamesValue u = some v → v ≠ "" →
        getRoles u = jsonParse v
        ∧ (isErr (jsonParse v) = true → isErr (getRoles u) = true) := by
  refine ⟨rfl, rfl, ?_⟩
  intro u v hv hne
  have hu : getRoles u = jsonParse v := by
    unfold getRoles
    rw [hv]
    show jsonParse (if v = "" then "[]" else v) = jsonParse v
    rw [if_neg hne]
  exact ⟨hu, fun he => by rw [hu]; exact he⟩

/-- C9 witness: the malformed non-empty annotation value "oops" raises the
decoder's parse error. -/
theorem c9_roles_decode_witness :
    roleNamesValue (userWithRoleValue "jane" "oops") = some "oops"
    ∧ ("oops" : String) ≠ ""
    ∧ getRoles (userWithRoleValue "jane" "oops") = jsonParse "oops"
    ∧ isErr (getRoles (userWithRoleValue "jane" "oops")) = true :=
  ⟨rfl, by decide,
    (c9_roles_decode.2.2 (userWithRoleValue "jane" "oops") "oops" rfl (by decide)).1,
    (c9_roles_decode.2.2 (userWithRoleValue "jane" "oops") "oops" rfl (by decide)).2 rfl⟩

/-- C10: a role-names annotation that is present but equal to the empty
string decodes to the empty list without raising any error, exactly as if
the annotation were absent. -/
theorem c10_empty_annotation_roles :
    getRoles (userWithRoleValue "joe" "") = Except.ok (Json.arr [])
    ∧ getRoles (userWithRoleValue "joe" "") = getRoles (plainUser "joe")
    ∧ isErr (getRoles (userWithRoleValue "joe" "")) = false :=
  ⟨rfl, rfl, rfl⟩

end Console
